import Mathlib

/-!
Verification of the AR-Focus app core (src/src/App.tsx) against its
natural-language specification.

The TypeScript component `ARFocusMVP` is shallowly embedded below.
Modelling conventions:
* JS numbers used for HP are modelled as exact rationals (`ℚ`); the constants
  `focusRewardPerSec = 0.06` and `distractPenaltyPerSec = 0.5` become
  `6/100` and `1/2`.
* The React state variables of the component become fields of `AppState`.
  The clock phase is stored as in the code: `isOnBreak = false` is the Work
  phase, `isOnBreak = true` is the Break phase.
* The `focusedNow : boolean | null` state is modelled by `AttentionState`
  (`true ↦ Focused`, `false ↦ Distracted`, `null ↦ Unknown`); the code's
  truthiness test `focusedNow ? a : b` becomes a test against `Focused`.
* ISO timestamp strings and the `Date.now()` id are modelled as abstract
  natural-number instants supplied to the operations that read the clock.
* React `useEffect` reload hooks (App.tsx lines 89-95) re-run whenever one of
  their dependencies (`workMinutes`/`breakMinutes`, `isRunning`, `isOnBreak`)
  changes; `applyReloadEffects` is their body and is applied after every state
  update made by a command while not running (while running both guards fail,
  so composing it there would be the identity).
-/

/-- The debounced attention signal: the component's
`focusedNow : boolean | null` (`true` = Focused, `false` = Distracted,
`null` = Unknown). -/
inductive AttentionState where
  | Focused
  | Distracted
  | Unknown
deriving DecidableEq, Repr

/-- Experiment bucket label, `"alpha" | "beta"` in the code. -/
inductive Mode where
  | alpha
  | beta
deriving DecidableEq, Repr

/-- `SessionLog` record (App.tsx lines 21-33); timestamps and the id are
modelled as natural-number instants. -/
structure SessionLog where
  id : ℕ
  startedAt : ℕ
  endedAt : ℕ
  durationSec : ℕ
  workMinutes : ℕ
  breakMinutes : ℕ
  focusSec : ℕ
  distractSec : ℕ
  hpStart : ℚ
  hpEnd : ℚ
  mode : Mode
deriving DecidableEq, Repr

/-- The mutable state of the `ARFocusMVP` component that the claims are
about: timer configuration and countdown, scoring state, session lifecycle
markers and the persisted session list. -/
structure AppState where
  workMinutes : ℕ
  breakMinutes : ℕ
  isRunning : Bool
  isOnBreak : Bool
  secondsLeft : ℕ
  hp : ℚ
  focusSec : ℕ
  distractSec : ℕ
  hpStart : ℚ
  sessionStart : Option ℕ
  mode : Mode
  sessions : List SessionLog
deriving DecidableEq, Repr

/-- `distractGraceMs = 1500` (App.tsx line 73). -/
def distractGraceMs : ℕ := 1500

/-- `focusRewardPerSec = 0.06` (App.tsx line 74). -/
def focusRewardPerSec : ℚ := 6 / 100

/-- `distractPenaltyPerSec = 0.5` (App.tsx line 75). -/
def distractPenaltyPerSec : ℚ := 1 / 2

/-- `Math.max(0, Math.min(100, x))` as used on line 110. -/
def clampHp (x : ℚ) : ℚ := max 0 (min 100 x)

/-- The per-tick HP delta: `focusedNow ? focusRewardPerSec
: -distractPenaltyPerSec` (line 109). `Distracted` and `Unknown`
(`false` and `null`) are both falsy. -/
def scoreDelta (a : AttentionState) : ℚ :=
  if a = AttentionState.Focused then focusRewardPerSec else -distractPenaltyPerSec

/-- The body of the two `secondsLeft` reload effects (App.tsx lines 89-95):
`if (!isRunning && !isOnBreak) setSecondsLeft(workMinutes * 60)` and
`if (!isRunning && isOnBreak) setSecondsLeft(breakMinutes * 60)`. -/
def applyReloadEffects (st : AppState) : AppState :=
  let st1 := if !st.isRunning && !st.isOnBreak
    then { st with secondsLeft := st.workMinutes * 60 } else st
  if !st1.isRunning && st1.isOnBreak
    then { st1 with secondsLeft := st1.breakMinutes * 60 } else st1

/-- One firing of the 1 Hz interval callback (App.tsx lines 99-115); the
interval only exists while `isRunning`, so on a non-running state no tick
occurs (modelled as the identity).
In order: the `setSecondsLeft` updater (flip phase and reload when
`s <= 1`, otherwise decrement), the `setHp` updater (clamped delta from the
current attention), then the `focusSec`/`distractSec` increment. -/
def tick (a : AttentionState) (st : AppState) : AppState :=
  if st.isRunning then
    let st1 :=
      if st.secondsLeft ≤ 1 then
        let nextIsBreak := !st.isOnBreak
        { st with isOnBreak := nextIsBreak,
                  secondsLeft :=
                    (if nextIsBreak then st.breakMinutes else st.workMinutes) * 60 }
      else { st with secondsLeft := st.secondsLeft - 1 }
    let st2 := { st1 with hp := clampHp (st1.hp + scoreDelta a) }
    if a = AttentionState.Focused then { st2 with focusSec := st2.focusSec + 1 }
    else { st2 with distractSec := st2.distractSec + 1 }
  else st

/-- A finite sequence of 1 Hz ticks, each observing the attention signal
current at that second. -/
def ticks (as : List AttentionState) (st : AppState) : AppState :=
  as.foldl (fun s a => tick a s) st

/-- `startTimer` (App.tsx lines 231-239), called at instant `now`: begin
running; if no session is open, record the start instant and capture
`hpStart`. -/
def startTimer (now : ℕ) (st : AppState) : AppState :=
  if !st.isRunning then
    let st1 := { st with isRunning := true }
    match st1.sessionStart with
    | none => { st1 with sessionStart := some now, hpStart := st1.hp }
    | some _ => st1
  else st

/-- `pauseTimer` (App.tsx lines 240-242): `setIsRunning(false)`.  The state
change re-renders the component, and because `isRunning` is a dependency of
the reload effects on lines 89-95, they fire afterwards. -/
def pauseTimer (st : AppState) : AppState :=
  applyReloadEffects { st with isRunning := false }

/-- `resetTimer` (App.tsx lines 243-251), followed by the reload effects
(which rewrite `secondsLeft` with the value it already holds). -/
def resetTimer (st : AppState) : AppState :=
  applyReloadEffects
    { st with isRunning := false, isOnBreak := false,
              secondsLeft := st.workMinutes * 60,
              focusSec := 0, distractSec := 0, hp := 100,
              sessionStart := none }

/-- The `SessionLog` built inside `stopAndSave` (App.tsx lines 258-270) at
instant `now`: `startedAt = sessionStartRef.current || now`. -/
def mkSessionLog (now : ℕ) (st : AppState) : SessionLog :=
  { id := now
    startedAt := st.sessionStart.getD now
    endedAt := now
    durationSec := st.focusSec + st.distractSec
    workMinutes := st.workMinutes
    breakMinutes := st.breakMinutes
    focusSec := st.focusSec
    distractSec := st.distractSec
    hpStart := st.hpStart
    hpEnd := st.hp
    mode := st.mode }

/-- `stopAndSave` (App.tsx lines 253-281) at instant `now`: stop running,
build the log entry, prepend it, truncate to 300 (`[log, ...sessions]
.slice(0, 300)`), persist, then reset counters/clock/marker; the reload
effects fire after the state change as for the other commands. -/
def stopAndSave (now : ℕ) (st : AppState) : AppState :=
  let log := mkSessionLog now st
  applyReloadEffects
    { st with isRunning := false, isOnBreak := false,
              secondsLeft := st.workMinutes * 60,
              focusSec := 0, distractSec := 0, hp := 100,
              sessionStart := none,
              sessions := (log :: st.sessions).take 300 }

/-- The initial component state (App.tsx lines 60-81) with an empty stored
log: 25 work minutes, 5 break minutes, not running, Work phase,
`secondsLeft = 25*60`, HP 100, no counters, no open session, alpha mode. -/
def init0 : AppState :=
  { workMinutes := 25, breakMinutes := 5, isRunning := false,
    isOnBreak := false, secondsLeft := 25 * 60, hp := 100,
    focusSec := 0, distractSec := 0, hpStart := 100,
    sessionStart := none, mode := Mode.alpha, sessions := [] }

/-! ### Attention debouncer (the per-sample update in `loop`) -/

/-- The debouncer's mutable state: `distractionStreakMs` and `focusedNow`
(App.tsx lines 70-71). -/
structure DebounceState where
  distractionStreakMs : ℕ
  focusedNow : AttentionState
deriving DecidableEq, Repr

/-- One input to the debouncer: either a classification sample
(`present` = at least one face found, line 188) or "classifier
unavailable" — detector/model/video not ready (line 216) or
`estimateFaces` threw (line 212). -/
inductive PresenceSignal where
  | sample (present : Bool)
  | unavailable
deriving DecidableEq, Repr

/-- One iteration of the sampling `loop`'s state update (App.tsx lines
183-217) with `elapsedMs` milliseconds since the previous inference:
on a present sample, reset the streak and set Focused (lines 208-209);
on an absent sample, add `elapsedMs` to the streak and set Distracted
exactly when the new streak exceeds `distractGraceMs` (lines 201-206);
on unavailable, set Unknown, streak untouched (lines 212, 216). -/
def debounceStep (elapsedMs : ℕ) (sig : PresenceSignal) (d : DebounceState) :
    DebounceState :=
  match sig with
  | PresenceSignal.unavailable => { d with focusedNow := AttentionState.Unknown }
  | PresenceSignal.sample present =>
    if present then
      { distractionStreakMs := 0, focusedNow := AttentionState.Focused }
    else
      let next := d.distractionStreakMs + elapsedMs
      { distractionStreakMs := next,
        focusedNow :=
          if next > distractGraceMs then AttentionState.Distracted
          else d.focusedNow }

/-! ### Session storage (`loadSessions`) -/

/-- What `localStorage.getItem(STORAGE_KEY)` followed by `JSON.parse` can
yield, as observed by `loadSessions`: no stored value, a string that fails
to parse, a parsed JSON value that is not an array, or a parsed JSON array
of items.  `α` is the type of parsed array items — the code never inspects
them (`arr as SessionLog[]` is an unchecked cast). -/
inductive StorageContent (α : Type) where
  | absent
  | unparsable
  | jsonNonArray
  | jsonArray (items : List α)
deriving DecidableEq, Repr

/-- A parsed JSON array item: either a value that decodes to a well-formed
`SessionLog`, or any other JSON value (number, string, nested array, object
with missing fields, ...). -/
inductive JsonItem where
  | validLog (s : SessionLog)
  | other (n : ℕ)
deriving DecidableEq, Repr

/-- `loadSessions` (App.tsx lines 35-45): no stored value → `[]`;
`JSON.parse` throws → caught, `[]`; parsed value not an array → `[]`;
otherwise the parsed array is returned as-is, elements unvalidated. -/
def loadSessions {α : Type} : StorageContent α → List α
  | StorageContent.absent => []
  | StorageContent.unparsable => []
  | StorageContent.jsonNonArray => []
  | StorageContent.jsonArray items => items

/-- Whether a storage content is a well-formed persisted session log: a
JSON array each of whose items decodes to a `SessionLog`.  Anything else
(absent, unparsable, non-array, or an array with a non-log item) is
missing or malformed. -/
def wellFormedStorage : StorageContent JsonItem → Prop
  | StorageContent.jsonArray items =>
      ∀ x ∈ items, ∃ s, x = JsonItem.validLog s
  | _ => False

/-! ### Basic lemmas about single ticks -/

theorem tick_not_running (a : AttentionState) (st : AppState)
    (h : st.isRunning = false) : tick a st = st := by
  simp [tick, h]

theorem tick_isRunning (a : AttentionState) (st : AppState) :
    (tick a st).isRunning = st.isRunning := by
  simp only [tick]
  split_ifs <;> simp_all

theorem tick_workMinutes (a : AttentionState) (st : AppState) :
    (tick a st).workMinutes = st.workMinutes := by
  simp only [tick]
  split_ifs <;> simp_all

theorem tick_breakMinutes (a : AttentionState) (st : AppState) :
    (tick a st).breakMinutes = st.breakMinutes := by
  simp only [tick]
  split_ifs <;> simp_all

theorem tick_hpStart (a : AttentionState) (st : AppState) :
    (tick a st).hpStart = st.hpStart := by
  simp only [tick]
  split_ifs <;> simp_all

theorem tick_sessions (a : AttentionState) (st : AppState) :
    (tick a st).sessions = st.sessions := by
  simp only [tick]
  split_ifs <;> simp_all

theorem tick_hp (a : AttentionState) (st : AppState) (h : st.isRunning = true) :
    (tick a st).hp = clampHp (st.hp + scoreDelta a) := by
  simp only [tick, h]
  split_ifs <;> simp_all

theorem tick_focusSec_focused (st : AppState) (h : st.isRunning = true) :
    (tick AttentionState.Focused st).focusSec = st.focusSec + 1 := by
  simp only [tick, h]
  split_ifs <;> simp_all

theorem tick_focusSec_other (a : AttentionState) (st : AppState)
    (h : st.isRunning = true) (ha : a ≠ AttentionState.Focused) :
    (tick a st).focusSec = st.focusSec := by
  simp only [tick, h]
  split_ifs <;> simp_all

theorem tick_distractSec_focused (st : AppState) (h : st.isRunning = true) :
    (tick AttentionState.Focused st).distractSec = st.distractSec := by
  simp only [tick, h]
  split_ifs <;> simp_all

theorem tick_distractSec_other (a : AttentionState) (st : AppState)
    (h : st.isRunning = true) (ha : a ≠ AttentionState.Focused) :
    (tick a st).distractSec = st.distractSec + 1 := by
  simp only [tick, h]
  split_ifs <;> simp_all

theorem tick_clock_dec (a : AttentionState) (st : AppState)
    (h : st.isRunning = true) (hs : 1 < st.secondsLeft) :
    (tick a st).secondsLeft = st.secondsLeft - 1 ∧ (tick a st).isOnBreak = st.isOnBreak := by
  simp only [tick, h]
  split_ifs <;> simp_all <;> omega

theorem tick_clock_flip (a : AttentionState) (st : AppState)
    (h : st.isRunning = true) (hs : st.secondsLeft ≤ 1) :
    (tick a st).isOnBreak = !st.isOnBreak ∧
      (tick a st).secondsLeft = (if !st.isOnBreak then st.breakMinutes else st.workMinutes) * 60 := by
  simp only [tick, h]
  split_ifs <;> simp_all

/-! ### Lemmas about `clampHp` -/

theorem clampHp_nonneg (x : ℚ) : 0 ≤ clampHp x := le_max_left 0 _

theorem clampHp_le_100 (x : ℚ) : clampHp x ≤ 100 :=
  max_le (by norm_num) (min_le_left 100 x)

theorem clampHp_of_bounds (x : ℚ) (h0 : 0 ≤ x) (h1 : x ≤ 100) : clampHp x = x := by
  unfold clampHp
  rw [min_eq_right h1, max_eq_right h0]

/-! ### Lemmas about tick sequences -/

theorem ticks_nil (st : AppState) : ticks [] st = st := rfl

theorem ticks_cons (a : AttentionState) (as : List AttentionState) (st : AppState) :
    ticks (a :: as) st = ticks as (tick a st) := rfl

theorem ticks_append (xs ys : List AttentionState) (st : AppState) :
    ticks (xs ++ ys) st = ticks ys (ticks xs st) := by
  unfold ticks
  exact List.foldl_append _ _ xs ys

theorem ticks_isRunning (as : List AttentionState) (st : AppState) :
    (ticks as st).isRunning = st.isRunning := by
  induction as generalizing st with
  | nil => rfl
  | cons a as ih => rw [ticks_cons, ih, tick_isRunning]

theorem ticks_hpStart (as : List AttentionState) (st : AppState) :
    (ticks as st).hpStart = st.hpStart := by
  induction as generalizing st with
  | nil => rfl
  | cons a as ih => rw [ticks_cons, ih, tick_hpStart]

/-- Every tick while running increments exactly one of the two counters, so
their sum advances by exactly the number of ticks. -/
theorem ticks_counterSum (as : List AttentionState) (st : AppState)
    (h : st.isRunning = true) :
    (ticks as st).focusSec + (ticks as st).distractSec
      = st.focusSec + st.distractSec + as.length := by
  induction as generalizing st with
  | nil => simp [ticks_nil]
  | cons a as ih =>
    rw [ticks_cons]
    have hr : (tick a st).isRunning = true := by rw [tick_isRunning]; exact h
    rw [ih _ hr]
    by_cases ha : a = AttentionState.Focused
    · subst ha
      rw [tick_focusSec_focused st h, tick_distractSec_focused st h]
      simp [List.length_cons]
      omega
    · rw [tick_focusSec_other a st h ha, tick_distractSec_other a st h ha]
      simp [List.length_cons]
      omega

/-- While the countdown has not yet reached its final second, ticks only
decrement `secondsLeft` and preserve the phase, the running flag and the
configured durations. -/
theorem ticks_countdown (as : List AttentionState) (st : AppState)
    (h : st.isRunning = true) (hlen : as.length < st.secondsLeft) :
    (ticks as st).secondsLeft = st.secondsLeft - as.length ∧
    (ticks as st).isOnBreak = st.isOnBreak ∧
    (ticks as st).isRunning = true ∧
    (ticks as st).workMinutes = st.workMinutes ∧
    (ticks as st).breakMinutes = st.breakMinutes := by
  induction as generalizing st with
  | nil => simp [ticks_nil, h]
  | cons a as ih =>
    rw [ticks_cons]
    have hs : 1 < st.secondsLeft := by
      simp only [List.length_cons] at hlen
      omega
    obtain ⟨hsec, hbrk⟩ := tick_clock_dec a st h hs
    have hr : (tick a st).isRunning = true := by rw [tick_isRunning]; exact h
    have hlen' : as.length < (tick a st).secondsLeft := by
      rw [hsec]
      simp only [List.length_cons] at hlen
      omega
    obtain ⟨g1, g2, g3, g4, g5⟩ := ih (tick a st) hr hlen'
    refine ⟨?_, ?_, g3, ?_, ?_⟩
    · rw [g1, hsec]
      simp only [List.length_cons]
      omega
    · rw [g2, hbrk]
    · rw [g4, tick_workMinutes]
    · rw [g5, tick_breakMinutes]

/-- Focused ticks starting from full HP keep HP pinned at 100: the reward is
clamped away at the cap. -/
theorem ticks_replicate_focused_hp100 (n : ℕ) (st : AppState)
    (h : st.isRunning = true) (hhp : st.hp = 100) :
    (ticks (List.replicate n AttentionState.Focused) st).hp = 100 := by
  induction n generalizing st with
  | zero => simpa [ticks_nil] using hhp
  | succ n ih =>
    rw [List.replicate_succ, ticks_cons]
    refine ih _ (by rw [tick_isRunning]; exact h) ?_
    rw [tick_hp _ _ h, hhp]
    norm_num [clampHp, scoreDelta, focusRewardPerSec]

theorem ticks_replicate_focused_counts (n : ℕ) (st : AppState)
    (h : st.isRunning = true) :
    (ticks (List.replicate n AttentionState.Focused) st).focusSec = st.focusSec + n ∧
    (ticks (List.replicate n AttentionState.Focused) st).distractSec = st.distractSec := by
  induction n generalizing st with
  | zero => simp [ticks_nil]
  | succ n ih =>
    rw [List.replicate_succ, ticks_cons]
    obtain ⟨g1, g2⟩ := ih (tick AttentionState.Focused st)
      (by rw [tick_isRunning]; exact h)
    rw [g1, g2, tick_focusSec_focused _ h, tick_distractSec_focused _ h]
    omega

theorem ticks_replicate_other_counts (a : AttentionState) (n : ℕ) (st : AppState)
    (h : st.isRunning = true) (ha : a ≠ AttentionState.Focused) :
    (ticks (List.replicate n a) st).focusSec = st.focusSec ∧
    (ticks (List.replicate n a) st).distractSec = st.distractSec + n := by
  induction n generalizing st with
  | zero => simp [ticks_nil]
  | succ n ih =>
    rw [List.replicate_succ, ticks_cons]
    obtain ⟨g1, g2⟩ := ih (tick a st) (by rw [tick_isRunning]; exact h)
    rw [g1, g2, tick_focusSec_other _ _ h ha, tick_distractSec_other _ _ h ha]
    omega

/-- Distracted ticks drain exactly half a point per tick as long as HP stays
inside the clamp window. -/
theorem ticks_replicate_distracted_hp (n : ℕ) (st : AppState)
    (h : st.isRunning = true) (hlow : (n : ℚ) * (1 / 2) ≤ st.hp)
    (hhigh : st.hp ≤ 100) :
    (ticks (List.replicate n AttentionState.Distracted) st).hp
      = st.hp - (n : ℚ) * (1 / 2) := by
  induction n generalizing st with
  | zero => simp [ticks_nil]
  | succ n ih =>
    rw [List.replicate_succ, ticks_cons]
    have hd : scoreDelta AttentionState.Distracted = -(1 / 2) := by
      unfold scoreDelta distractPenaltyPerSec
      rw [if_neg (by decide)]
    have hcast : ((n : ℚ) + 1) * (1 / 2) ≤ st.hp := by
      push_cast at hlow
      exact hlow
    have hstep : (tick AttentionState.Distracted st).hp = st.hp - 1 / 2 := by
      rw [tick_hp _ _ h, hd, clampHp_of_bounds]
      · ring
      · nlinarith
      · linarith
    have := ih (tick AttentionState.Distracted st)
      (by rw [tick_isRunning]; exact h)
      (by rw [hstep]; nlinarith)
      (by rw [hstep]; linarith)
    rw [this, hstep]
    push_cast
    ring

/-! ### Lemmas about the commands -/

theorem pauseTimer_eq (st : AppState) :
    pauseTimer st = { st with
                      isRunning := false,
                      secondsLeft :=
                        (if st.isOnBreak then st.breakMinutes else st.workMinutes) * 60 } := by
  simp only [pauseTimer, applyReloadEffects]
  cases hb : st.isOnBreak <;> simp [hb]

theorem resetTimer_eq (st : AppState) :
    resetTimer st = { st with
                      isRunning := false, isOnBreak := false,
                      secondsLeft := st.workMinutes * 60, focusSec := 0,
                      distractSec := 0, hp := 100, sessionStart := none } := by
  simp [resetTimer, applyReloadEffects]

theorem stopAndSave_eq (now : ℕ) (st : AppState) :
    stopAndSave now st = { st with
                           isRunning := false, isOnBreak := false,
                           secondsLeft := st.workMinutes * 60, focusSec := 0,
                           distractSec := 0, hp := 100, sessionStart := none,
                           sessions := (mkSessionLog now st :: st.sessions).take 300 } := by
  simp [stopAndSave, applyReloadEffects]

theorem startTimer_fresh (now : ℕ) (st : AppState)
    (h : st.isRunning = false) (hs : st.sessionStart = none) :
    startTimer now st = { st with
                          isRunning := true, sessionStart := some now,
                          hpStart := st.hp } := by
  simp [startTimer, h, hs]

theorem pauseTimer_secondsLeft (st : AppState) :
    (pauseTimer st).secondsLeft
      = (if st.isOnBreak then st.breakMinutes else st.workMinutes) * 60 := by
  simp [pauseTimer_eq]

theorem pauseTimer_isRunning (st : AppState) : (pauseTimer st).isRunning = false := by
  simp [pauseTimer_eq]

theorem pauseTimer_isOnBreak (st : AppState) : (pauseTimer st).isOnBreak = st.isOnBreak := by
  simp [pauseTimer_eq]

theorem pauseTimer_hp (st : AppState) : (pauseTimer st).hp = st.hp := by
  simp [pauseTimer_eq]

theorem pauseTimer_focusSec (st : AppState) : (pauseTimer st).focusSec = st.focusSec := by
  simp [pauseTimer_eq]

theorem pauseTimer_distractSec (st : AppState) : (pauseTimer st).distractSec = st.distractSec := by
  simp [pauseTimer_eq]

/-! ### Claim theorems -/

/-- C1: the claim says `pause()` leaves `secondsLeft` unchanged for a state
mid-countdown in the Work phase.  The code violates it: `pauseTimer` flips
`isRunning` to `false`, which re-fires the minutes-reload effect (App.tsx
lines 89-91) and rewrites `secondsLeft` to `workMinutes * 60`.  This theorem
exhibits the failure on a reachable state: from the initial state, `start()`
followed by 100 ticks leaves a running Work-phase state with
`secondsLeft = 1400`, and `pause()` on it stops the clock and preserves HP,
`focusSec`, `distractSec` and the phase — but resets `secondsLeft` to 1500. -/
theorem pause_resets_countdown_bug :
    ((ticks (List.replicate 100 AttentionState.Unknown) (startTimer 0 init0)).secondsLeft = 1400)
  ∧ ((ticks (List.replicate 100 AttentionState.Unknown) (startTimer 0 init0)).isRunning = true)
  ∧ ((ticks (List.replicate 100 AttentionState.Unknown) (startTimer 0 init0)).isOnBreak = false)
  ∧ ((pauseTimer (ticks (List.replicate 100 AttentionState.Unknown) (startTimer 0 init0))).isRunning = false)
  ∧ ((pauseTimer (ticks (List.replicate 100 AttentionState.Unknown) (startTimer 0 init0))).secondsLeft = 1500)
  ∧ ((pauseTimer (ticks (List.replicate 100 AttentionState.Unknown) (startTimer 0 init0))).hp
       = (ticks (List.replicate 100 AttentionState.Unknown) (startTimer 0 init0)).hp)
  ∧ ((pauseTimer (ticks (List.replicate 100 AttentionState.Unknown) (startTimer 0 init0))).focusSec
       = (ticks (List.replicate 100 AttentionState.Unknown) (startTimer 0 init0)).focusSec)
  ∧ ((pauseTimer (ticks (List.replicate 100 AttentionState.Unknown) (startTimer 0 init0))).distractSec
       = (ticks (List.replicate 100 AttentionState.Unknown) (startTimer 0 init0)).distractSec)
  ∧ ((pauseTimer (ticks (List.replicate 100 AttentionState.Unknown) (startTimer 0 init0))).isOnBreak
       = (ticks (List.replicate 100 AttentionState.Unknown) (startTimer 0 init0)).isOnBreak) := by
  have hr : (startTimer 0 init0).isRunning = true := rfl
  have hc := ticks_countdown (List.replicate 100 AttentionState.Unknown)
    (startTimer 0 init0) hr (by simp [startTimer, init0])
  obtain ⟨g1, g2, g3, g4, g5⟩ := hc
  have hsec : (ticks (List.replicate 100 AttentionState.Unknown) (startTimer 0 init0)).secondsLeft = 1400 := by
    rw [g1]
    simp [startTimer, init0]
  have hbrk : (ticks (List.replicate 100 AttentionState.Unknown) (startTimer 0 init0)).isOnBreak = false := by
    rw [g2]
    rfl
  have hwm : (ticks (List.replicate 100 AttentionState.Unknown) (startTimer 0 init0)).workMinutes = 25 := by
    rw [g4]
    rfl
  refine ⟨hsec, g3, hbrk, pauseTimer_isRunning _, ?_, pauseTimer_hp _,
    pauseTimer_focusSec _, pauseTimer_distractSec _, pauseTimer_isOnBreak _⟩
  rw [pauseTimer_secondsLeft, hbrk, hwm]
  decide

/-- C2: for every initial HP in [0,100] and every finite sequence of ticks
with arbitrary attention values, HP stays in [0,100]: each tick either
leaves HP unchanged (not running) or clamps it back into the interval. -/
theorem hp_always_in_range (as : List AttentionState) (st : AppState)
    (h0 : 0 ≤ st.hp) (h1 : st.hp ≤ 100) :
    0 ≤ (ticks as st).hp ∧ (ticks as st).hp ≤ 100 := by
  induction as generalizing st with
  | nil => exact ⟨h0, h1⟩
  | cons a as ih =>
    rw [ticks_cons]
    cases hr : st.isRunning with
    | false =>
      rw [tick_not_running a st hr]
      exact ih st h0 h1
    | true =>
      refine ih (tick a st) ?_ ?_
      · rw [tick_hp a st hr]
        exact clampHp_nonneg _
      · rw [tick_hp a st hr]
        exact clampHp_le_100 _

/-- Witness for C2 at a concrete state and attention sequence. -/
theorem hp_always_in_range_witness :
    0 ≤ (ticks [AttentionState.Focused, AttentionState.Distracted, AttentionState.Unknown]
          (startTimer 0 init0)).hp ∧
    (ticks [AttentionState.Focused, AttentionState.Distracted, AttentionState.Unknown]
          (startTimer 0 init0)).hp ≤ 100 :=
  hp_always_in_range _ (startTimer 0 init0) (by norm_num [startTimer, init0])
    (by norm_num [startTimer, init0])

/-- C8: `reset()` on any state yields `focusSec = 0`, `distractSec = 0`,
`HP = 100`, Work phase, `secondsLeft = workMinutes*60`, not running, a
cleared open-session marker, and an unchanged session log. -/
theorem reset_restores_fresh_state (st : AppState) :
    (resetTimer st).focusSec = 0
  ∧ (resetTimer st).distractSec = 0
  ∧ (resetTimer st).hp = 100
  ∧ (resetTimer st).isOnBreak = false
  ∧ (resetTimer st).secondsLeft = st.workMinutes * 60
  ∧ (resetTimer st).isRunning = false
  ∧ (resetTimer st).sessionStart = none
  ∧ (resetTimer st).sessions = st.sessions := by
  simp [resetTimer_eq]

/-- C9 counterexample: the claim says every malformed persisted payload
loads as the empty log, but `loadSessions` returns any parsed JSON array
as-is (`arr as SessionLog[]` is an unchecked cast), so a JSON array whose
single item is not a session log is malformed yet loads as a non-empty
list. -/
theorem loadSessions_returns_junk_array :
    ¬ wellFormedStorage (StorageContent.jsonArray [JsonItem.other 7])
  ∧ loadSessions (StorageContent.jsonArray [JsonItem.other 7]) = [JsonItem.other 7]
  ∧ loadSessions (StorageContent.jsonArray [JsonItem.other 7]) ≠ ([] : List JsonItem) := by
  refine ⟨?_, rfl, by simp [loadSessions]⟩
  intro h
  obtain ⟨s, hs⟩ := h (JsonItem.other 7) (by simp)
  cases hs

/-- C9 amended: an absent stored value, an unparsable string, or parsed JSON
that is not an array all load as the empty log (never a failure); a parsed
JSON array, however, is returned as-is with its elements unvalidated. -/
theorem loadSessions_total_behavior (α : Type) (items : List α) :
    loadSessions (StorageContent.absent : StorageContent α) = []
  ∧ loadSessions (StorageContent.unparsable : StorageContent α) = []
  ∧ loadSessions (StorageContent.jsonNonArray : StorageContent α) = []
  ∧ loadSessions (StorageContent.jsonArray items) = items :=
  ⟨rfl, rfl, rfl, rfl⟩

theorem stopAndSave_sessions (now : ℕ) (st : AppState) :
    (stopAndSave now st).sessions = (mkSessionLog now st :: st.sessions).take 300 := by
  simp [stopAndSave_eq]

/-- Evaluation of the spec's worked example: from a freshly started session
(HP 100), 10 focused ticks followed by 5 distracted ticks leave
`hp = 97.5`, `focusSec = 10` and `distractSec = 5`: each focused tick at
full HP is clamped to 100, and each distracted tick then removes 0.5. -/
theorem scoring_example_eval :
    (ticks (List.replicate 10 AttentionState.Focused ++ List.replicate 5 AttentionState.Distracted)
        (startTimer 0 init0)).hp = 195 / 2
  ∧ (ticks (List.replicate 10 AttentionState.Focused ++ List.replicate 5 AttentionState.Distracted)
        (startTimer 0 init0)).focusSec = 10
  ∧ (ticks (List.replicate 10 AttentionState.Focused ++ List.replicate 5 AttentionState.Distracted)
        (startTimer 0 init0)).distractSec = 5 := by
  have hr1 : (startTimer 0 init0).isRunning = true := rfl
  have hp1 : (startTimer 0 init0).hp = 100 := rfl
  rw [ticks_append]
  have hrA : (ticks (List.replicate 10 AttentionState.Focused) (startTimer 0 init0)).isRunning = true := by
    rw [ticks_isRunning]
    exact hr1
  have hpA : (ticks (List.replicate 10 AttentionState.Focused) (startTimer 0 init0)).hp = 100 :=
    ticks_replicate_focused_hp100 10 _ hr1 hp1
  obtain ⟨hfA, hdA⟩ := ticks_replicate_focused_counts 10 (startTimer 0 init0) hr1
  obtain ⟨hfB, hdB⟩ := ticks_replicate_other_counts AttentionState.Distracted 5
    (ticks (List.replicate 10 AttentionState.Focused) (startTimer 0 init0)) hrA (by decide)
  have hpB := ticks_replicate_distracted_hp 5
    (ticks (List.replicate 10 AttentionState.Focused) (startTimer 0 init0)) hrA
    (by norm_num [hpA]) (by norm_num [hpA])
  refine ⟨?_, ?_, ?_⟩
  · rw [hpB, hpA]
    norm_num
  · rw [hfB, hfA]
    rfl
  · rw [hdB, hdA]
    rfl

/-- C3 counterexample: the claim's worked example says saving after 10
focused and 5 distracted ticks from HP = 100 yields `hpEnd = 97.6`.  The
code yields `hpEnd = 97.5`: the per-tick clamp caps HP at 100, so the 10
focused ticks at full HP gain nothing, and the 5 distracted ticks then
remove 2.5 (note that even ignoring the clamp, 100 + 10·0.06 − 5·0.5 is
98.1, not 97.6). -/
theorem scoring_example_hpEnd_ne :
    (mkSessionLog 15
        (ticks (List.replicate 10 AttentionState.Focused ++ List.replicate 5 AttentionState.Distracted)
          (startTimer 0 init0))).hpEnd = 195 / 2
  ∧ ((195 : ℚ) / 2 ≠ 976 / 10) := by
  constructor
  · exact scoring_example_eval.1
  · norm_num

/-- C3 amended: per tick while running, `Focused` gives
`hp := clamp(hp + 0.06, 0, 100)` and `focusSec += 1`; `Distracted` or
`Unknown` (anything not `Focused`) gives `hp := clamp(hp − 0.5, 0, 100)`
and `distractSec += 1`.  The worked example (10 focused then 5 distracted
ticks from HP 100) yields `hpEnd = 97.5` — not 97.6, because the per-tick
clamp pins HP at 100 during the focused ticks — with `focusSec = 10`,
`distractSec = 5`, `durationSec = 15`. -/
theorem tick_scoring_rules_and_example :
    (∀ (a : AttentionState) (st : AppState), st.isRunning = true →
      ((a = AttentionState.Focused →
          (tick a st).hp = clampHp (st.hp + focusRewardPerSec) ∧
          (tick a st).focusSec = st.focusSec + 1 ∧
          (tick a st).distractSec = st.distractSec) ∧
       (a ≠ AttentionState.Focused →
          (tick a st).hp = clampHp (st.hp - distractPenaltyPerSec) ∧
          (tick a st).distractSec = st.distractSec + 1 ∧
          (tick a st).focusSec = st.focusSec)))
  ∧ (mkSessionLog 15
        (ticks (List.replicate 10 AttentionState.Focused ++ List.replicate 5 AttentionState.Distracted)
          (startTimer 0 init0))).hpEnd = 195 / 2
  ∧ (mkSessionLog 15
        (ticks (List.replicate 10 AttentionState.Focused ++ List.replicate 5 AttentionState.Distracted)
          (startTimer 0 init0))).focusSec = 10
  ∧ (mkSessionLog 15
        (ticks (List.replicate 10 AttentionState.Focused ++ List.replicate 5 AttentionState.Distracted)
          (startTimer 0 init0))).distractSec = 5
  ∧ (mkSessionLog 15
        (ticks (List.replicate 10 AttentionState.Focused ++ List.replicate 5 AttentionState.Distracted)
          (startTimer 0 init0))).durationSec = 15 := by
  obtain ⟨he1, he2, he3⟩ := scoring_example_eval
  refine ⟨?_, he1, he2, he3, ?_⟩
  · intro a st h
    constructor
    · intro ha
      subst ha
      refine ⟨?_, tick_focusSec_focused st h, tick_distractSec_focused st h⟩
      have hsd : scoreDelta AttentionState.Focused = focusRewardPerSec := by
        unfold scoreDelta
        exact if_pos rfl
      rw [tick_hp _ _ h, hsd]
    · intro ha
      refine ⟨?_, tick_distractSec_other a st h ha, tick_focusSec_other a st h ha⟩
      have hsd : scoreDelta a = -distractPenaltyPerSec := by
        unfold scoreDelta
        exact if_neg ha
      rw [tick_hp _ _ h, hsd, sub_eq_add_neg]
  · show (ticks _ _).focusSec + (ticks _ _).distractSec = 15
    rw [he2, he3]

/-- Witness for the amended C3 at a concrete attention value and state. -/
theorem tick_scoring_rules_and_example_witness :
    (tick AttentionState.Distracted (startTimer 0 init0)).hp
      = clampHp ((startTimer 0 init0).hp - distractPenaltyPerSec)
  ∧ (tick AttentionState.Distracted (startTimer 0 init0)).distractSec
      = (startTimer 0 init0).distractSec + 1 := by
  have h := (tick_scoring_rules_and_example.1 AttentionState.Distracted
    (startTimer 0 init0) rfl).2 (by decide)
  exact ⟨h.1, h.2.1⟩

/-- C4: the attention debouncer.  A present sample zeroes the streak and
declares `Focused` immediately; an absent sample adds the elapsed
milliseconds to the streak and declares `Distracted` exactly when the
accumulated streak exceeds `distractGraceMs = 1500`, leaving the previous
state unchanged otherwise; hence one absent sample that does not push the
streak past the grace threshold, followed by a present sample, never
yields `Distracted`. -/
theorem debounce_rules (d : DebounceState) (e : ℕ) :
    distractGraceMs = 1500
  ∧ (debounceStep e (PresenceSignal.sample true) d
       = { distractionStreakMs := 0, focusedNow := AttentionState.Focused })
  ∧ ((debounceStep e (PresenceSignal.sample false) d).distractionStreakMs
       = d.distractionStreakMs + e)
  ∧ (d.distractionStreakMs + e > distractGraceMs →
       (debounceStep e (PresenceSignal.sample false) d).focusedNow
         = AttentionState.Distracted)
  ∧ (d.distractionStreakMs + e ≤ distractGraceMs →
       (debounceStep e (PresenceSignal.sample false) d).focusedNow = d.focusedNow)
  ∧ (d.focusedNow ≠ AttentionState.Distracted →
     d.distractionStreakMs + e ≤ distractGraceMs →
       ∀ e2 : ℕ,
         (debounceStep e (PresenceSignal.sample false) d).focusedNow
           ≠ AttentionState.Distracted ∧
         (debounceStep e2 (PresenceSignal.sample true)
            (debounceStep e (PresenceSignal.sample false) d)).focusedNow
           ≠ AttentionState.Distracted) := by
  have hfalse : debounceStep e (PresenceSignal.sample false) d
      = { distractionStreakMs := d.distractionStreakMs + e,
          focusedNow := if d.distractionStreakMs + e > distractGraceMs
            then AttentionState.Distracted else d.focusedNow } := by
    simp [debounceStep]
  have habs : ∀ h : ¬ d.distractionStreakMs + e > distractGraceMs,
      (debounceStep e (PresenceSignal.sample false) d).focusedNow = d.focusedNow := by
    intro h
    rw [hfalse]
    show (if d.distractionStreakMs + e > distractGraceMs
      then AttentionState.Distracted else d.focusedNow) = d.focusedNow
    rw [if_neg h]
  refine ⟨rfl, by simp [debounceStep], by simp [debounceStep], ?_, ?_, ?_⟩
  · intro h
    rw [hfalse]
    show (if d.distractionStreakMs + e > distractGraceMs
      then AttentionState.Distracted else d.focusedNow) = AttentionState.Distracted
    rw [if_pos h]
  · intro h
    exact habs (by omega)
  · intro hne h e2
    constructor
    · rw [habs (by omega)]
      exact hne
    · simp [debounceStep]

/-- Witness for C4: a 1000 ms absent sample from a fresh debouncer does not
flip to `Distracted`, and the following present sample declares focus. -/
theorem debounce_rules_witness :
    (debounceStep 1000 (PresenceSignal.sample false)
        { distractionStreakMs := 0, focusedNow := AttentionState.Unknown }).focusedNow
      ≠ AttentionState.Distracted
  ∧ (debounceStep 300 (PresenceSignal.sample true)
        (debounceStep 1000 (PresenceSignal.sample false)
          { distractionStreakMs := 0, focusedNow := AttentionState.Unknown })).focusedNow
      ≠ AttentionState.Distracted := by
  have h := (debounce_rules
    { distractionStreakMs := 0, focusedNow := AttentionState.Unknown } 1000).2.2.2.2.2
    (by decide) (by decide) 300
  exact h

theorem tick_clock_flip_work (a : AttentionState) (st : AppState)
    (h : st.isRunning = true) (hb : st.isOnBreak = false) (hs : st.secondsLeft ≤ 1) :
    (tick a st).isOnBreak = true ∧ (tick a st).secondsLeft = st.breakMinutes * 60 := by
  simp only [tick, h]
  split_ifs <;> simp_all

theorem tick_clock_flip_break (a : AttentionState) (st : AppState)
    (h : st.isRunning = true) (hb : st.isOnBreak = true) (hs : st.secondsLeft ≤ 1) :
    (tick a st).isOnBreak = false ∧ (tick a st).secondsLeft = st.workMinutes * 60 := by
  simp only [tick, h]
  split_ifs <;> simp_all

/-- C5: per tick while running, above the final second `secondsLeft` just
decrements and the phase is unchanged; at the final second the phase flips
(Work to Break or Break to Work) and `secondsLeft` reloads to the new
phase's configured duration.  The flip changes nothing besides phase and
`secondsLeft`: HP and both counters follow exactly the ordinary per-tick
scoring update (whose formulas do not depend on `secondsLeft` or the
phase), and `hpStart` is untouched.  Concretely, from a started session at
`Work(1500)` with `breakMinutes = 5`, 1500 ticks end in the Break phase
with `secondsLeft = 300`. -/
theorem interval_clock_spec (a : AttentionState) (st : AppState)
    (h : st.isRunning = true) :
    (1 < st.secondsLeft →
       (tick a st).secondsLeft = st.secondsLeft - 1 ∧ (tick a st).isOnBreak = st.isOnBreak)
  ∧ (st.secondsLeft = 1 → st.isOnBreak = false →
       (tick a st).isOnBreak = true ∧ (tick a st).secondsLeft = st.breakMinutes * 60)
  ∧ (st.secondsLeft = 1 → st.isOnBreak = true →
       (tick a st).isOnBreak = false ∧ (tick a st).secondsLeft = st.workMinutes * 60)
  ∧ ((tick a st).hp = clampHp (st.hp + scoreDelta a))
  ∧ ((tick a st).hpStart = st.hpStart)
  ∧ (a = AttentionState.Focused →
       (tick a st).focusSec = st.focusSec + 1 ∧ (tick a st).distractSec = st.distractSec)
  ∧ (a ≠ AttentionState.Focused →
       (tick a st).distractSec = st.distractSec + 1 ∧ (tick a st).focusSec = st.focusSec)
  ∧ ((ticks (List.replicate 1500 AttentionState.Unknown) (startTimer 0 init0)).isOnBreak = true
       ∧ (ticks (List.replicate 1500 AttentionState.Unknown) (startTimer 0 init0)).secondsLeft = 300) := by
  have hr1 : (startTimer 0 init0).isRunning = true := rfl
  have hsplit : List.replicate 1500 AttentionState.Unknown
      = List.replicate 1499 AttentionState.Unknown ++ [AttentionState.Unknown] := by
    rw [show (1500 : ℕ) = 1499 + 1 by norm_num, List.replicate_succ']
  obtain ⟨g1, g2, g3, g4, g5⟩ := ticks_countdown (List.replicate 1499 AttentionState.Unknown)
    (startTimer 0 init0) hr1 (by simp only [List.length_replicate]; decide)
  have hsec2 : (ticks (List.replicate 1499 AttentionState.Unknown) (startTimer 0 init0)).secondsLeft = 1 := by
    rw [g1]
    simp only [List.length_replicate]
    decide
  have hbrk2 : (ticks (List.replicate 1499 AttentionState.Unknown) (startTimer 0 init0)).isOnBreak = false := by
    rw [g2]
    rfl
  have hbm2 : (ticks (List.replicate 1499 AttentionState.Unknown) (startTimer 0 init0)).breakMinutes = 5 := by
    rw [g5]
    rfl
  obtain ⟨f1, f2⟩ := tick_clock_flip_work AttentionState.Unknown
    (ticks (List.replicate 1499 AttentionState.Unknown) (startTimer 0 init0)) g3 hbrk2 (by omega)
  refine ⟨fun hgt => tick_clock_dec a st h hgt, ?_, ?_, tick_hp a st h, tick_hpStart a st, ?_, ?_, ?_, ?_⟩
  · intro hs1 hb
    exact tick_clock_flip_work a st h hb (by omega)
  · intro hs1 hb
    exact tick_clock_flip_break a st h hb (by omega)
  · intro ha
    subst ha
    exact ⟨tick_focusSec_focused st h, tick_distractSec_focused st h⟩
  · intro ha
    exact ⟨tick_distractSec_other a st h ha, tick_focusSec_other a st h ha⟩
  · rw [hsplit, ticks_append, ticks_cons, ticks_nil, f1]
  · rw [hsplit, ticks_append, ticks_cons, ticks_nil, f2, hbm2]

/-- Witness for C5 at a concrete state: the first tick of a started session
decrements `secondsLeft` from 1500 to 1499 and keeps the Work phase. -/
theorem interval_clock_spec_witness :
    (tick AttentionState.Unknown (startTimer 0 init0)).secondsLeft = 1499
  ∧ (tick AttentionState.Unknown (startTimer 0 init0)).isOnBreak = false := by
  have h := (interval_clock_spec AttentionState.Unknown (startTimer 0 init0) rfl).1 (by decide)
  refine ⟨?_, ?_⟩
  · rw [h.1]
    decide
  · rw [h.2]
    rfl

/-- C10 (implicit): the per-tick scoring update is applied in every phase,
including Break: for a running state in the Break phase, a tick updates HP
by the same clamped delta and increments the same counter as it would in
the Work phase — a distracted second of break drains HP exactly like a
distracted second of work. -/
theorem break_phase_scoring (a : AttentionState) (st : AppState)
    (h : st.isRunning = true) (_hb : st.isOnBreak = true) :
    ((tick a st).hp = clampHp (st.hp + scoreDelta a))
  ∧ (a = AttentionState.Focused →
       (tick a st).focusSec = st.focusSec + 1 ∧ (tick a st).distractSec = st.distractSec)
  ∧ (a ≠ AttentionState.Focused →
       (tick a st).distractSec = st.distractSec + 1 ∧ (tick a st).focusSec = st.focusSec)
  ∧ ((tick a st).hp = (tick a { st with isOnBreak := false }).hp)
  ∧ ((tick a st).focusSec = (tick a { st with isOnBreak := false }).focusSec)
  ∧ ((tick a st).distractSec = (tick a { st with isOnBreak := false }).distractSec) := by
  have hW : ({ st with isOnBreak := false } : AppState).isRunning = true := h
  refine ⟨tick_hp a st h, ?_, ?_, ?_, ?_, ?_⟩
  · intro ha
    subst ha
    exact ⟨tick_focusSec_focused st h, tick_distractSec_focused st h⟩
  · intro ha
    exact ⟨tick_distractSec_other a st h ha, tick_focusSec_other a st h ha⟩
  · rw [tick_hp a st h, tick_hp a _ hW]
  · by_cases ha : a = AttentionState.Focused
    · subst ha
      rw [tick_focusSec_focused st h, tick_focusSec_focused _ hW]
    · rw [tick_focusSec_other a st h ha, tick_focusSec_other a _ hW ha]
  · by_cases ha : a = AttentionState.Focused
    · subst ha
      rw [tick_distractSec_focused st h, tick_distractSec_focused _ hW]
    · rw [tick_distractSec_other a st h ha, tick_distractSec_other a _ hW ha]

/-- Witness for C10 on a concrete running Break-phase state. -/
theorem break_phase_scoring_witness :
    (tick AttentionState.Unknown { init0 with isRunning := true, isOnBreak := true }).hp
      = clampHp (({ init0 with isRunning := true, isOnBreak := true } : AppState).hp
          + scoreDelta AttentionState.Unknown)
  ∧ (tick AttentionState.Unknown { init0 with isRunning := true, isOnBreak := true }).distractSec
      = ({ init0 with isRunning := true, isOnBreak := true } : AppState).distractSec + 1 := by
  have h := break_phase_scoring AttentionState.Unknown
    { init0 with isRunning := true, isOnBreak := true } rfl rfl
  exact ⟨h.1, (h.2.2.1 (by decide)).1⟩

/-- C6: `save()` produces a log entry whose `durationSec` is
`focusSec + distractSec` (which for a session opened by `start()` from a
fresh state equals the number of ticks processed since it was opened),
whose `hpEnd` is the HP at save time and whose `hpStart` is the HP captured
when the session was started; the entry is prepended, the log is truncated
to 300 entries and persisted, and the in-memory counters are then reset
exactly as `reset()` would (only the session list differs). -/
theorem stopAndSave_spec (now n0 : ℕ) (s st : AppState) (as : List AttentionState)
    (hfresh : s.isRunning = false) (hmark : s.sessionStart = none)
    (hf0 : s.focusSec = 0) (hd0 : s.distractSec = 0) :
    ((stopAndSave now st).sessions = (mkSessionLog now st :: st.sessions).take 300)
  ∧ ((stopAndSave now st).sessions.head? = some (mkSessionLog now st))
  ∧ ((mkSessionLog now st).durationSec = st.focusSec + st.distractSec)
  ∧ ((mkSessionLog now st).hpEnd = st.hp)
  ∧ ((mkSessionLog now st).hpStart = st.hpStart)
  ∧ (stopAndSave now st
       = { resetTimer st with sessions := (mkSessionLog now st :: st.sessions).take 300 })
  ∧ ((ticks as (startTimer n0 s)).hpStart = s.hp)
  ∧ ((mkSessionLog now (ticks as (startTimer n0 s))).durationSec = as.length) := by
  have hcons : (mkSessionLog now st :: st.sessions).take 300
      = mkSessionLog now st :: st.sessions.take 299 := by
    rw [show (300 : ℕ) = 299 + 1 by norm_num, List.take_succ_cons]
  have hrs : (startTimer n0 s).isRunning = true := by
    rw [startTimer_fresh n0 s hfresh hmark]
  have hfs : (startTimer n0 s).focusSec = 0 := by
    rw [startTimer_fresh n0 s hfresh hmark]
    exact hf0
  have hds : (startTimer n0 s).distractSec = 0 := by
    rw [startTimer_fresh n0 s hfresh hmark]
    exact hd0
  refine ⟨stopAndSave_sessions now st, ?_, rfl, rfl, rfl, ?_, ?_, ?_⟩
  · rw [stopAndSave_sessions now st, hcons]
    rfl
  · rw [stopAndSave_eq, resetTimer_eq]
  · rw [ticks_hpStart, startTimer_fresh n0 s hfresh hmark]
  · show (ticks as (startTimer n0 s)).focusSec + (ticks as (startTimer n0 s)).distractSec
      = as.length
    rw [ticks_counterSum as (startTimer n0 s) hrs, hfs, hds]
    omega

/-- Witness for C6 on a concrete session: one focused tick from a freshly
started session gives a saved duration of 1, and saving prepends the new
entry at the head of the log. -/
theorem stopAndSave_spec_witness :
    (mkSessionLog 20 (ticks [AttentionState.Focused] (startTimer 0 init0))).durationSec = 1
  ∧ (stopAndSave 20 init0).sessions.head? = some (mkSessionLog 20 init0) := by
  have h := stopAndSave_spec 20 0 init0 init0 [AttentionState.Focused] rfl rfl rfl rfl
  exact ⟨h.2.2.2.2.2.2.2, h.2.1⟩

/-- C7: each save leaves the persisted log at length `min (n + 1) 300`;
the log never exceeds 300 entries; the new entry is at the front; and when
the log already holds 300 entries, the oldest (last) entry is evicted: the
new log is the fresh entry followed by only the first 299 old entries. -/
theorem saved_log_capped (now : ℕ) (st : AppState) :
    ((stopAndSave now st).sessions.length = min (st.sessions.length + 1) 300)
  ∧ ((stopAndSave now st).sessions.length ≤ 300)
  ∧ ((stopAndSave now st).sessions.head? = some (mkSessionLog now st))
  ∧ (st.sessions.length = 300 →
       (stopAndSave now st).sessions = mkSessionLog now st :: st.sessions.take 299) := by
  have hs := stopAndSave_sessions now st
  have hcons : (mkSessionLog now st :: st.sessions).take 300
      = mkSessionLog now st :: st.sessions.take 299 := by
    rw [show (300 : ℕ) = 299 + 1 by norm_num, List.take_succ_cons]
  refine ⟨?_, ?_, ?_, ?_⟩
  · rw [hs, List.length_take, List.length_cons]
    omega
  · rw [hs, List.length_take, List.length_cons]
    omega
  · rw [hs, hcons]
    rfl
  · intro _
    rw [hs, hcons]

/-- A state whose stored log is already at the 300-entry cap, for
exercising the eviction path. -/
def fullLogState : AppState :=
  { init0 with sessions := List.replicate 300 (mkSessionLog 0 init0) }

/-- Witness for C7: saving over a full 300-entry log evicts the last entry
and keeps the fresh one in front. -/
theorem saved_log_capped_witness :
    (stopAndSave 1 fullLogState).sessions
      = mkSessionLog 1 fullLogState :: fullLogState.sessions.take 299 :=
  (saved_log_capped 1 fullLogState).2.2.2 (by simp only [fullLogState, List.length_replicate])

/-- A dirty mid-session state: running, in Break, with accumulated counters
and a drained HP, for exercising `reset()`. -/
def dirtyState : AppState :=
  { workMinutes := 25, breakMinutes := 5, isRunning := true,
    isOnBreak := true, secondsLeft := 42, hp := 7,
    focusSec := 3, distractSec := 4, hpStart := 100,
    sessionStart := some 5, mode := Mode.alpha, sessions := [] }

/-- Witness for C8: resetting a dirty mid-session state restores the fresh
observable state while leaving the saved-session list alone. -/
theorem reset_restores_fresh_state_witness :
    (resetTimer dirtyState).hp = 100
  ∧ (resetTimer dirtyState).secondsLeft = dirtyState.workMinutes * 60
  ∧ (resetTimer dirtyState).sessions = dirtyState.sessions := by
  have h := reset_restores_fresh_state dirtyState
  exact ⟨h.2.2.1, h.2.2.2.2.1, h.2.2.2.2.2.2.2⟩

/-- Witness for the amended C9 at concrete storage contents. -/
theorem loadSessions_total_behavior_witness :
    loadSessions (StorageContent.absent : StorageContent JsonItem) = []
  ∧ loadSessions (StorageContent.jsonArray [JsonItem.other 3]) = [JsonItem.other 3] := by
  have h := loadSessions_total_behavior JsonItem [JsonItem.other 3]
  exact ⟨h.1, h.2.2.2⟩
